import Mathlib

/-!
# Crowd simulator configuration loading

A shallow embedding of `crowd_simulator_common.hpp`
(`building_sim_plugins/building_plugins_common`): the pose value type, the
model type registry, and the configuration reader `CrowdSimInterface::ReadSDF`
with its helper `_LoadModelInitPose`.

Conventions of the embedding.

* Numbers (`double`, `float`) are an abstract type `ν`; the text-to-number
  conversions of the C++ standard library and of the configuration tree library
  are fields of `Lib ν`.  `decLib` is a concrete instance on exact decimals used
  to evaluate the code on explicit inputs.
* A call that leaves through a C++ exception or a failed `assert` is an
  `Outcome.raised`, together with the state reached at that moment; a normal
  return is `Outcome.ret` with the returned value.
* A `shared_ptr<Record>` obtained from the registry is the key it is stored
  under; a write through the pointer is `modifyRecord` at that key.
-/

namespace crowd_simulator

/-! ## Outcomes -/

/-- Ways a call can leave other than by `return`. -/
inductive Exc where
  /-- Thrown by `std::stod` when no conversion can be performed. -/
  | invalid_argument
  /-- Thrown by `std::stod` when the value is outside the range of `double`. -/
  | out_of_range
  /-- Constructing a `std::string` from a null `char*`. -/
  | null_string
  /-- A failed `assert`. -/
  | assertion_failed
deriving DecidableEq, Repr

/-- Result of running a member function: the value returned, or the exception
raised, each with the state of the object the function works on. -/
inductive Outcome (ρ σ : Type) where
  | ret (r : ρ) (s : σ)
  | raised (e : Exc) (s : σ)
deriving DecidableEq, Repr

/-- State carried by an outcome. -/
def Outcome.state {ρ σ : Type} : Outcome ρ σ → σ
  | .ret _ s => s
  | .raised _ s => s

/-- Library conversions the header relies on. -/
structure Lib (ν : Type) where
  /-- The literal `0` / `0.0`. -/
  zero : ν
  /-- The function `std::stod` on the characters of its argument. -/
  stod : List Char → Except Exc ν
  /-- Conversion done by `Get<double>` of the configuration tree. -/
  getDouble : String → ν
  /-- Conversion done by `Get<float>` of the configuration tree. -/
  getFloat : String → ν

/-! ## AgentPose3d -/

/-- Class `AgentPose3d`: six scalar members. -/
structure AgentPose3d (ν : Type) where
  _x : ν
  _y : ν
  _z : ν
  _pitch : ν
  _roll : ν
  _yaw : ν
deriving DecidableEq, Repr

/-- Default constructor `AgentPose3d()`. -/
def AgentPose3d.new {ν : Type} (lib : Lib ν) : AgentPose3d ν :=
  ⟨lib.zero, lib.zero, lib.zero, lib.zero, lib.zero, lib.zero⟩

/-! ## Whitespace tokenisation -/

/-- Characters matched by the regex atom `\s` (classic locale): space, tab,
line feed, vertical tab, form feed, carriage return. -/
def isspace (c : Char) : Bool :=
  c.toNat == 32 || (decide (9 ≤ c.toNat) && decide (c.toNat ≤ 13))

/-- Walk of `std::sregex_token_iterator(first, last, ws_re, -1)` for
`ws_re = \s+`.  `cur` holds, reversed, the characters read since the end of the
last match; `inWs` says that the previous character belongs to a match.  Each
match emits the text in front of it (empty when the match starts the string);
the text after the last match is emitted only when it is not empty. -/
def tokenWalk : List Char → List Char → Bool → List (List Char)
  | [], cur, _ => if cur.isEmpty then [] else [cur.reverse]
  | c :: cs, cur, inWs =>
    if isspace c then
      if inWs then tokenWalk cs [] true else cur.reverse :: tokenWalk cs [] true
    else tokenWalk cs (c :: cur) false

/-- The vector `parts` built in `_LoadModelInitPose`.  A string without any
match, the empty string included, is emitted whole as a single part. -/
def regexSplit (s : List Char) : List (List Char) :=
  if s.isEmpty then [[]] else tokenWalk s [] false

/-! ## Configuration tree -/

/-- A node of the configuration tree: its tag, its text and its child nodes in
document order. -/
inductive Element where
  | mk (name : String) (value : String) (children : List Element)

/-- Tag of a node. -/
def Element.name : Element → String
  | .mk n _ _ => n

/-- Text of a node, as returned by `Get<std::string>()`. -/
def Element.value : Element → String
  | .mk _ v _ => v

/-- Child nodes in document order. -/
def Element.children : Element → List Element
  | .mk _ _ cs => cs

/-- First node of a sibling list carrying the tag `key`. -/
def findNamed (key : String) : List Element → Option Element
  | [] => none
  | e :: rest => if e.name = key then some e else findNamed key rest

/-- Member `HasElement(key)`. -/
def Element.HasElement (e : Element) (key : String) : Bool :=
  (findNamed key e.children).isSome

/-- Member `Get<std::string>(key, param, default)`: the value assigned to
`param` and the returned flag. -/
def Element.GetString (e : Element) (key : String) (dflt : String) : String × Bool :=
  match findNamed key e.children with
  | some c => (c.value, true)
  | none => (dflt, false)

/-- Member `Get<double>(key, param, default)`: the value assigned to `param`
and the returned flag. -/
def Element.GetDouble {ν : Type} (lib : Lib ν) (e : Element) (key : String) (dflt : ν) :
    ν × Bool :=
  match findNamed key e.children with
  | some c => (lib.getDouble c.value, true)
  | none => (dflt, false)

/-! ## _LoadModelInitPose -/

/-- The six assignments `result.X(std::stod(parts[0]))` ... in source order;
an exception of `std::stod` leaves the earlier assignments in place. -/
def assignPose {ν : Type} (lib : Lib ν) (p0 p1 p2 p3 p4 p5 : List Char)
    (result : AgentPose3d ν) : Outcome Bool (AgentPose3d ν) :=
  match lib.stod p0 with
  | .error ex => .raised ex result
  | .ok x =>
    let r1 := { result with _x := x }
    match lib.stod p1 with
    | .error ex => .raised ex r1
    | .ok y =>
      let r2 := { r1 with _y := y }
      match lib.stod p2 with
      | .error ex => .raised ex r2
      | .ok z =>
        let r3 := { r2 with _z := z }
        match lib.stod p3 with
        | .error ex => .raised ex r3
        | .ok pitch =>
          let r4 := { r3 with _pitch := pitch }
          match lib.stod p4 with
          | .error ex => .raised ex r4
          | .ok roll =>
            let r5 := { r4 with _roll := roll }
            match lib.stod p5 with
            | .error ex => .raised ex r5
            | .ok yaw => .ret true { r5 with _yaw := yaw }

/-- Body of `_LoadModelInitPose` once `poseStr` has been read. -/
def loadPoseString {ν : Type} (lib : Lib ν) (poseStr : List Char)
    (result : AgentPose3d ν) : Outcome Bool (AgentPose3d ν) :=
  match regexSplit poseStr with
  | [p0, p1, p2, p3, p4, p5] => assignPose lib p0 p1 p2 p3 p4 p5 result
  | _ => .ret false result

/-- Member `CrowdSimInterface::_LoadModelInitPose(modelTypeElement, result)`. -/
def _LoadModelInitPose {ν : Type} (lib : Lib ν) (modelTypeElement : Element)
    (result : AgentPose3d ν) : Outcome Bool (AgentPose3d ν) :=
  match modelTypeElement.GetString "initial_pose" "" with
  | (poseStr, true) => loadPoseString lib poseStr.data result
  | (_, false) => .ret true result

/-! ## ModelTypeDatabase -/

/-- Struct `ModelTypeDatabase::Record`. -/
structure Record (ν : Type) where
  typeName : String
  fileName : String
  pose : AgentPose3d ν
  animation : String
  animationSpeed : ν
  modelFilePath : String
deriving DecidableEq, Repr

/-- Value of `new ModelTypeDatabase::Record()`: empty strings, the default
pose, a zero speed. -/
def Record.new {ν : Type} (lib : Lib ν) : Record ν :=
  ⟨"", "", AgentPose3d.new lib, "", lib.zero, ""⟩

/-- Class `ModelTypeDatabase`: the member `_records`, an
`unordered_map<string, RecordPtr>`, kept as a list of key and record pairs. -/
structure ModelTypeDatabase (ν : Type) where
  _records : List (String × Record ν)
deriving DecidableEq, Repr

/-- Record stored under a key, if any. -/
def lookupRecord {ν : Type} (k : String) : List (String × Record ν) → Option (Record ν)
  | [] => none
  | p :: rest => if p.1 = k then some p.2 else lookupRecord k rest

/-- Record the registry maps `k` to. -/
def ModelTypeDatabase.recordAt {ν : Type} (db : ModelTypeDatabase ν) (k : String) :
    Option (Record ν) :=
  lookupRecord k db._records

/-- Number of stored records. -/
def ModelTypeDatabase.count {ν : Type} (db : ModelTypeDatabase ν) : Nat :=
  db._records.length

/-- The call `_records.emplace(k, r)` of `std::unordered_map`: when the key is
present nothing is inserted or replaced and the flag is false; otherwise the
pair is added and the flag is true. -/
def mapEmplace {ν : Type} (recs : List (String × Record ν)) (k : String) (r : Record ν) :
    List (String × Record ν) × Bool :=
  if (lookupRecord k recs).isSome then (recs, false) else (recs ++ [(k, r)], true)

/-- Member `ModelTypeDatabase::Emplace(k, r)`.  The `assert(pair.second)` is
evaluated, so a key already present ends the call with `assertion_failed`; on
success the returned pointer is the key of the inserted record. -/
def ModelTypeDatabase.Emplace {ν : Type} (db : ModelTypeDatabase ν) (k : String)
    (r : Record ν) : Outcome String (ModelTypeDatabase ν) :=
  match mapEmplace db._records k r with
  | (recs, true) => .ret k ⟨recs⟩
  | (recs, false) => .raised .assertion_failed ⟨recs⟩

/-- Write through a record pointer: the record stored under `k` becomes `r`. -/
def modifyRecord {ν : Type} (k : String) (r : Record ν) (db : ModelTypeDatabase ν) :
    ModelTypeDatabase ν :=
  ⟨db._records.map (fun p => if p.1 = k then (p.1, r) else p)⟩

/-! ## CrowdSimInterface -/

/-- Class `CrowdSimInterface`: the members `ReadSDF` reads and writes, with the
pointee of `_modelTypeDBPtr` in place of the pointer. -/
structure CrowdSimInterface (ν : Type) where
  _modelTypeDB : ModelTypeDatabase ν
  _simTimeStep : ν
  _resourcePath : String
  _behaviorFile : String
  _sceneFile : String
  _externalAgents : List String
deriving DecidableEq, Repr

/-- Lines 281 to 315 of the `model_type` loop body, acting on the record
`modelTypePtr` points to; `s` is the type name read before.  The outcome
`ret true` means that the end of the body is reached, `ret false` that
`ReadSDF` returns false there. -/
def fillRecord {ν : Type} (lib : Lib ν) (modelTypeElement : Element) (s : String)
    (r : Record ν) : Outcome Bool (Record ν) :=
  let r1 := { r with typeName := s }
  match modelTypeElement.GetString "filename" "" with
  | (v, false) => .ret false { r1 with fileName := v }
  | (v, true) =>
    let r2 := { r1 with fileName := v }
    match modelTypeElement.GetString "animation" "" with
    | (a, false) => .ret false { r2 with animation := a }
    | (a, true) =>
      let r3 := { r2 with animation := a }
      match modelTypeElement.GetDouble lib "animation_speed" lib.zero with
      | (sp, false) => .ret false { r3 with animationSpeed := sp }
      | (sp, true) =>
        let r4 := { r3 with animationSpeed := sp }
        if !modelTypeElement.HasElement "initial_pose" then .ret false r4
        else
          match _LoadModelInitPose lib modelTypeElement r4.pose with
          | .ret b pose => .ret b { r4 with pose := pose }
          | .raised ex pose => .raised ex { r4 with pose := pose }

/-- One pass of the `model_type` loop body (lines 272 to 315).  After a
successful `Emplace` the pointer `modelTypePtr` refers to the record just
inserted, the value of `new Record()`; the writes of the body through the
pointer are those of `fillRecord` on that record, and they reach the registry
at the key of the pointer, also when the body is left early.  The outcome
`ret true` means that the body ran to its end. -/
def modelTypeBody {ν : Type} (lib : Lib ν) (modelTypeElement : Element)
    (st : CrowdSimInterface ν) : Outcome Bool (CrowdSimInterface ν) :=
  match modelTypeElement.GetString "typename" "" with
  | (_, false) => .ret false st
  | (s, true) =>
    match st._modelTypeDB.Emplace s (Record.new lib) with
    | .raised ex db => .raised ex { st with _modelTypeDB := db }
    | .ret modelTypePtr db =>
      match fillRecord lib modelTypeElement s (Record.new lib) with
      | .ret b r => .ret b { st with _modelTypeDB := modifyRecord modelTypePtr r db }
      | .raised ex r => .raised ex { st with _modelTypeDB := modifyRecord modelTypePtr r db }

/-- The `while (modelTypeElement)` loop.  The pointer starts at
`GetElement("model_type")` and moves by `GetNextElement("model_type")`, so it
visits the children tagged `model_type` in document order; the list is the
part of the sibling sequence not yet passed.  The outcome `ret true` means the
loop ended with a null pointer. -/
def modelTypeLoop {ν : Type} (lib : Lib ν) :
    List Element → CrowdSimInterface ν → Outcome Bool (CrowdSimInterface ν)
  | [], st => .ret true st
  | e :: rest, st =>
    if e.name = "model_type" then
      match modelTypeBody lib e st with
      | .ret true st1 => modelTypeLoop lib rest st1
      | .ret false st1 => .ret false st1
      | .raised ex st1 => .raised ex st1
    else modelTypeLoop lib rest st

/-- The `while (externalAgentElement)` loop: the pointer visits the children
tagged `external_agent` in document order; each visited value is appended to
`_externalAgents`.  When there is no such child the pointer is null from the
start: `GetElement` on a tag that has neither a child nor an element
description, as is the case for the settings of a plugin node, adds nothing
and returns a null pointer. -/
def externalAgentLoop : List Element → List String → List String
  | [], names => names
  | e :: rest, names =>
    if e.name = "external_agent" then externalAgentLoop rest (names ++ [e.value])
    else externalAgentLoop rest names

/-- Lines 228 to 237: the string assigned to `_resourcePath`.  `env` is the
result of `getenv("MENGE_RESOURCE_PATH")`, `none` for a null pointer, from
which no `std::string` can be built. -/
def resolveResourcePath (env : Option String) (sdf : Element) : Except Exc String :=
  match findNamed "resource_path" sdf.children with
  | some c => .ok c.value
  | none =>
    match env with
    | some p => .ok p
    | none => .error .null_string

/-- Member `CrowdSimInterface::ReadSDF(sdf)`.  Each pair of `HasElement(key)`
and `GetElement(key)` is one search for the first child tagged `key`. -/
def ReadSDF {ν : Type} (lib : Lib ν) (env : Option String) (sdf : Element)
    (st : CrowdSimInterface ν) : Outcome Bool (CrowdSimInterface ν) :=
  match resolveResourcePath env sdf with
  | .error ex => .raised ex st
  | .ok path =>
    let st1 := { st with _resourcePath := path }
    match findNamed "behavior_file" sdf.children with
    | none => .ret false st1
    | some b =>
      let st2 := { st1 with _behaviorFile := b.value }
      match findNamed "scene_file" sdf.children with
      | none => .ret false st2
      | some sc =>
        let st3 := { st2 with _sceneFile := sc.value }
        match findNamed "update_time_step" sdf.children with
        | none => .ret false st3
        | some t =>
          let st4 := { st3 with _simTimeStep := lib.getFloat t.value }
          if !sdf.HasElement "model_type" then .ret false st4
          else
            match modelTypeLoop lib sdf.children st4 with
            | .ret true st5 =>
              .ret true { st5 with
                _externalAgents := externalAgentLoop sdf.children st5._externalAgents }
            | .ret false st5 => .ret false st5
            | .raised ex st5 => .raised ex st5

/-! ## MengeHandle -/

/-- Class `MengeHandle`: its data members other than the engine pointer. -/
structure MengeHandle (ν : Type) where
  _resourcePath : String
  _behaviorFile : String
  _sceneFile : String
  _simTimeStep : ν
  _agentCount : Nat
  initialized : Bool
deriving DecidableEq, Repr

/-- Constructor `MengeHandle::MengeHandle`.  The members `_ResourceFilePath`
and `_LoadSimulation` are only declared in the header and are taken as
arguments. -/
def MengeHandle.new {ν : Type} (_ResourceFilePath : MengeHandle ν → String → String)
    (_LoadSimulation : MengeHandle ν → Bool × MengeHandle ν)
    (resourcePath behaviorFile sceneFile : String) (simTimeStep : ν) :
    Outcome Unit (MengeHandle ν) :=
  let h0 : MengeHandle ν := ⟨resourcePath, behaviorFile, sceneFile, simTimeStep, 0, false⟩
  let h1 := { h0 with _behaviorFile := _ResourceFilePath h0 h0._behaviorFile }
  let h2 := { h1 with _sceneFile := _ResourceFilePath h1 h1._sceneFile }
  let (loaded, h3) := _LoadSimulation h2
  let h4 := if loaded then { h3 with initialized := true } else h3
  if h4.initialized then .ret () h4 else .raised .assertion_failed h4

/-! ## A concrete instance on exact decimals -/

/-- An exact decimal: the number `(-1)^neg * mant * 10^exp`. -/
structure Dec where
  neg : Bool
  mant : Nat
  exp : Int
deriving DecidableEq, Repr

/-- Decimal digit test. -/
def isDigitChar (c : Char) : Bool :=
  decide (48 ≤ c.toNat) && decide (c.toNat ≤ 57)

/-- Value of a run of decimal digits. -/
def digitsValue (ds : List Char) : Nat :=
  ds.foldl (fun acc c => 10 * acc + (c.toNat - 48)) 0

/-- Optional sign in front of a number: the sign read and the remaining text. -/
def readSign : List Char → Bool × List Char
  | c :: cs => if c.toNat = 45 then (true, cs) else if c.toNat = 43 then (false, cs) else (false, c :: cs)
  | [] => (false, [])

/-- Exponent part `e` or `E`, optional sign, digits; it counts only when at
least one digit follows. -/
def readExponent : List Char → Int
  | c :: cs =>
    if c.toNat = 101 ∨ c.toNat = 69 then
      let (neg, rest) := readSign cs
      let ds := rest.takeWhile isDigitChar
      if ds.isEmpty then 0
      else if neg then - (digitsValue ds : Int) else (digitsValue ds : Int)
    else 0
  | [] => 0

/-- The function `std::stod` on decimal notation, with the value kept exact:
leading whitespace is skipped, then an optional sign, digits with an optional
point, and an optional exponent are read; text after the number is ignored.
`invalid_argument` is raised when no digit can be read.  Hexadecimal notation,
`inf`, `nan` and the range check of `double` are outside this instance. -/
def stodDec (s : List Char) : Except Exc Dec :=
  let s1 := s.dropWhile isspace
  let (neg, s2) := readSign s1
  let ip := s2.takeWhile isDigitChar
  let s3 := s2.dropWhile isDigitChar
  let (fp, s4) :=
    match s3 with
    | c :: cs =>
      if c.toNat = 46 then (cs.takeWhile isDigitChar, cs.dropWhile isDigitChar)
      else ([], s3)
    | [] => ([], s3)
  if ip.isEmpty && fp.isEmpty then .error .invalid_argument
  else .ok ⟨neg, digitsValue (ip ++ fp), readExponent s4 - (fp.length : Int)⟩

/-- Conversion of a configuration value to a number; text that is not a number
converts to zero. -/
def decOfString (s : String) : Dec :=
  match stodDec s.data with
  | .ok d => d
  | .error _ => ⟨false, 0, 0⟩

/-- Concrete library instance on exact decimals. -/
def decLib : Lib Dec where
  zero := ⟨false, 0, 0⟩
  stod := stodDec
  getDouble := decOfString
  getFloat := decOfString

/-- A node without children. -/
def leaf (name value : String) : Element := .mk name value []

/-- A `model_type` block with all five settings. -/
def modelTypeBlock (typeName fileName animation speed pose : String) : Element :=
  .mk "model_type" "" [leaf "typename" typeName, leaf "filename" fileName,
    leaf "animation" animation, leaf "animation_speed" speed, leaf "initial_pose" pose]

/-- A plugin node with the four scalar settings, the time step being `step`,
followed by the nodes `more`. -/
def pluginNode (step : String) (more : List Element) : Element :=
  .mk "plugin" "" ([leaf "resource_path" "/opt/menge", leaf "behavior_file" "behavior.xml",
    leaf "scene_file" "scene.xml", leaf "update_time_step" step] ++ more)

/-- Object state before `ReadSDF`: an empty registry and no external agent. -/
def emptyInterface {ν : Type} (lib : Lib ν) : CrowdSimInterface ν :=
  ⟨⟨[]⟩, lib.zero, "", "", "", []⟩

/-! ## Vocabulary of the statements -/

/-- A token: a non-empty run of characters none of which is whitespace. -/
def IsToken (t : List Char) : Prop :=
  t ≠ [] ∧ t.all (fun c => !isspace c) = true

/-- A separator: a non-empty run of whitespace characters. -/
def IsGap (w : List Char) : Prop :=
  w ≠ [] ∧ w.all isspace = true

instance (t : List Char) : Decidable (IsToken t) := by
  unfold IsToken; infer_instance

instance (w : List Char) : Decidable (IsGap w) := by
  unfold IsGap; infer_instance

/-- Six tokens written one after the other with the separators `w1` to `w5`
between them. -/
def sixJoined (t0 w1 t1 w2 t2 w3 t3 w4 t4 w5 t5 : List Char) : List Char :=
  t0 ++ (w1 ++ (t1 ++ (w2 ++ (t2 ++ (w3 ++ (t3 ++ (w4 ++ (t4 ++ (w5 ++ t5)))))))))

/-- The text `s` is the six tokens `t0` to `t5` separated by runs of
whitespace, with nothing in front of the first and nothing after the last. -/
def SixTokenText (s t0 t1 t2 t3 t4 t5 : List Char) : Prop :=
  ∃ w1 w2 w3 w4 w5 : List Char,
    IsGap w1 ∧ IsGap w2 ∧ IsGap w3 ∧ IsGap w4 ∧ IsGap w5 ∧
    IsToken t0 ∧ IsToken t1 ∧ IsToken t2 ∧ IsToken t3 ∧ IsToken t4 ∧ IsToken t5 ∧
    s = sixJoined t0 w1 t1 w2 t2 w3 t3 w4 t4 w5 t5

/-- Walk collecting the maximal runs of non-whitespace characters of a text;
`cur` holds, reversed, the run being read. -/
def wordsWalk : List Char → List Char → List (List Char)
  | [], cur => if cur.isEmpty then [] else [cur.reverse]
  | c :: cs, cur =>
    if isspace c then
      if cur.isEmpty then wordsWalk cs [] else cur.reverse :: wordsWalk cs []
    else wordsWalk cs (c :: cur)

/-- The whitespace-separated tokens of a text: its maximal runs of
non-whitespace characters, in order. -/
def tokens (s : List Char) : List (List Char) := wordsWalk s []

/-- A complete `model_type` block named `guard` whose `initial_pose` is `pose`. -/
def guardBlock (pose : String) : Element :=
  modelTypeBlock "guard" "guard.dae" "walk" "1.0" pose

/-- The pose `(1.0, 2.0, 3.0, 0.0, 0.0, 1.5708)` on exact decimals. -/
def samplePose : AgentPose3d Dec :=
  ⟨⟨false, 10, -1⟩, ⟨false, 20, -1⟩, ⟨false, 30, -1⟩, ⟨false, 0, -1⟩, ⟨false, 0, -1⟩,
    ⟨false, 15708, -4⟩⟩

/-- The `guard` block with the pose text `1.0 2.0 3.0 0.0 0.0 1.5708`. -/
def goodGuard : Element := guardBlock "1.0 2.0 3.0 0.0 0.0 1.5708"

/-- Record `ReadSDF` stores for `goodGuard`. -/
def guardRecord : Record Dec :=
  ⟨"guard", "guard.dae", samplePose, "walk", ⟨false, 10, -1⟩, ""⟩

/-- Another record, used as the second definition of a duplicate. -/
def otherRecord : Record Dec :=
  ⟨"guard", "other.dae", AgentPose3d.new decLib, "run", ⟨false, 25, -1⟩, ""⟩

/-- A registry holding `guardRecord` under the key `guard`. -/
def guardRegistry : ModelTypeDatabase Dec := ⟨[("guard", guardRecord)]⟩

/-- A configuration with every setting except `resource_path`. -/
def noResourcePathNode : Element :=
  .mk "plugin" "" [leaf "behavior_file" "behavior.xml", leaf "scene_file" "scene.xml",
    leaf "update_time_step" "0.1", goodGuard]

/-- Type name declared by a `model_type` block: the string `s` of the loop. -/
def typeNameOf (e : Element) : String := (e.GetString "typename" "").1

/-- The children tagged `model_type`, in document order. -/
def modelTypes (sdf : Element) : List Element :=
  sdf.children.filter (fun e => decide (e.name = "model_type"))

/-- The values of the children tagged `external_agent`, in document order. -/
def externalAgentNames (sdf : Element) : List String :=
  (sdf.children.filter (fun e => decide (e.name = "external_agent"))).map Element.value

/-- Record the loop body leaves in the registry for a block. -/
def blockRecord {ν : Type} (lib : Lib ν) (e : Element) : Record ν :=
  (fillRecord lib e (typeNameOf e) (Record.new lib)).state

/-- The loop body runs to its end on the block, apart from the registration
of the type name: the type name is present and the record is filled. -/
def BodyOk {ν : Type} (lib : Lib ν) (e : Element) : Prop :=
  (e.GetString "typename" "").2 = true ∧
    ∃ r, fillRecord lib e (typeNameOf e) (Record.new lib) = .ret true r

/-- A `model_type` block with its five settings, the pose being six separated
tokens that `std::stod` accepts. -/
def CompleteBlock {ν : Type} (lib : Lib ν) (e : Element) : Prop :=
  ∃ (tn fn an sp ip : Element) (t0 t1 t2 t3 t4 t5 : List Char) (v0 v1 v2 v3 v4 v5 : ν),
    findNamed "typename" e.children = some tn ∧
    findNamed "filename" e.children = some fn ∧
    findNamed "animation" e.children = some an ∧
    findNamed "animation_speed" e.children = some sp ∧
    findNamed "initial_pose" e.children = some ip ∧
    SixTokenText ip.value.data t0 t1 t2 t3 t4 t5 ∧
    lib.stod t0 = .ok v0 ∧ lib.stod t1 = .ok v1 ∧ lib.stod t2 = .ok v2 ∧
    lib.stod t3 = .ok v3 ∧ lib.stod t4 = .ok v4 ∧ lib.stod t5 = .ok v5

/-- A configuration that satisfies all required settings: a resource path from
the tree or the environment, the three scalar settings, at least one
`model_type` block, every block complete, and type names pairwise distinct. -/
structure ValidConfig {ν : Type} (lib : Lib ν) (env : Option String) (sdf : Element) :
    Prop where
  path : sdf.HasElement "resource_path" = true ∨ env.isSome = true
  behavior : sdf.HasElement "behavior_file" = true
  scene : sdf.HasElement "scene_file" = true
  step : sdf.HasElement "update_time_step" = true
  model : sdf.HasElement "model_type" = true
  blocks : ∀ e ∈ modelTypes sdf, CompleteBlock lib e
  distinct : ((modelTypes sdf).map typeNameOf).Nodup

/-- A complete `model_type` block named `nurse`. -/
def nurseBlock : Element :=
  modelTypeBlock "nurse" "nurse.dae" "stand" "0.5" "4 5 6 0 0 0"

/-- Record `ReadSDF` stores for `nurseBlock`. -/
def nurseRecord : Record Dec :=
  ⟨"nurse", "nurse.dae", ⟨⟨false, 4, 0⟩, ⟨false, 5, 0⟩, ⟨false, 6, 0⟩, ⟨false, 0, 0⟩,
    ⟨false, 0, 0⟩, ⟨false, 0, 0⟩⟩, "stand", ⟨false, 5, -1⟩, ""⟩

/-- A configuration with one block and no `external_agent` element, the time
step being `step`. -/
def agentlessNode (step : String) : Element := pluginNode step [goodGuard]

/-- A configuration with two blocks and two external agents, interleaved. -/
def crowdNode : Element :=
  pluginNode "0.1" [goodGuard, leaf "external_agent" "robot1", nurseBlock,
    leaf "external_agent" "robot2"]

/-- Object state after `ReadSDF` on `crowdNode`, starting from
`emptyInterface`. -/
def crowdLoaded : CrowdSimInterface Dec :=
  ⟨⟨[("guard", guardRecord), ("nurse", nurseRecord)]⟩, ⟨false, 1, -1⟩, "/opt/menge",
    "behavior.xml", "scene.xml", ["robot1", "robot2"]⟩

/-- A `model_type` block without `typename`. -/
def namelessBlock : Element :=
  .mk "model_type" "" [leaf "filename" "nurse.dae", leaf "animation" "stand",
    leaf "animation_speed" "0.5", leaf "initial_pose" "4 5 6 0 0 0"]

/-- A configuration whose first block has a pose token that is not a number
and whose second block lacks `typename`. -/
def badPoseThenNameless : Element :=
  pluginNode "0.1" [guardBlock "1.0 x 3.0 0.0 0.0 1.5708", namelessBlock]

/-- A configuration with neither `resource_path` nor `behavior_file`. -/
def noPathNoBehavior : Element :=
  .mk "plugin" "" [leaf "scene_file" "scene.xml", leaf "update_time_step" "0.1", goodGuard]

/-- Some required setting is missing: one of the three scalar settings, every
`model_type` block, or one of the five settings of some block. -/
def MissingSetting (sdf : Element) : Prop :=
  sdf.HasElement "behavior_file" = false ∨ sdf.HasElement "scene_file" = false ∨
  sdf.HasElement "update_time_step" = false ∨ sdf.HasElement "model_type" = false ∨
  ∃ e ∈ modelTypes sdf,
    e.HasElement "typename" = false ∨ e.HasElement "filename" = false ∨
    e.HasElement "animation" = false ∨ e.HasElement "animation_speed" = false ∨
    e.HasElement "initial_pose" = false

/-- An object whose registry already holds `guardRecord` under `guard`. -/
def guardInterface : CrowdSimInterface Dec :=
  ⟨guardRegistry, ⟨false, 0, 0⟩, "", "", "", []⟩

/-! ## Tokenisation lemmas -/

theorem tokenWalk_append_token (t rest cur : List Char)
    (ht : t.all (fun c => !isspace c) = true) :
    tokenWalk (t ++ rest) cur false = tokenWalk rest (t.reverse ++ cur) false := by
  induction t generalizing cur with
  | nil => simp
  | cons c cs ih =>
    simp only [List.all_cons, Bool.and_eq_true, Bool.not_eq_true'] at ht
    simp [tokenWalk, ht.1, ih _ ht.2]

theorem tokenWalk_token_start (t rest : List Char) (b : Bool) (ht : IsToken t) :
    tokenWalk (t ++ rest) [] b = tokenWalk rest t.reverse false := by
  obtain ⟨hne, hall⟩ := ht
  cases t with
  | nil => exact absurd rfl hne
  | cons c cs =>
    simp only [List.all_cons, Bool.and_eq_true, Bool.not_eq_true'] at hall
    have h := tokenWalk_append_token cs rest [c] hall.2
    simp [tokenWalk, hall.1, h]

theorem tokenWalk_gap_continue (w rest : List Char) (hw : w.all isspace = true) :
    tokenWalk (w ++ rest) [] true = tokenWalk rest [] true := by
  induction w with
  | nil => simp
  | cons c cs ih =>
    simp only [List.all_cons, Bool.and_eq_true] at hw
    simp [tokenWalk, hw.1, ih hw.2]

theorem tokenWalk_gap (w rest cur : List Char) (hw : IsGap w) :
    tokenWalk (w ++ rest) cur false = cur.reverse :: tokenWalk rest [] true := by
  obtain ⟨hne, hall⟩ := hw
  cases w with
  | nil => exact absurd rfl hne
  | cons c cs =>
    simp only [List.all_cons, Bool.and_eq_true] at hall
    simp [tokenWalk, hall.1, tokenWalk_gap_continue cs rest hall.2]

/-- A token followed by a separator is emitted as one part. -/
theorem tokenWalk_token_gap (t w rest : List Char) (b : Bool) (ht : IsToken t)
    (hw : IsGap w) :
    tokenWalk (t ++ (w ++ rest)) [] b = t :: tokenWalk rest [] true := by
  rw [tokenWalk_token_start t _ b ht, tokenWalk_gap w rest _ hw]
  simp

/-- A token at the end of the text is emitted as the last part. -/
theorem tokenWalk_token_end (t : List Char) (b : Bool) (ht : IsToken t) :
    tokenWalk t [] b = [t] := by
  have h := tokenWalk_token_start t [] b ht
  simp only [List.append_nil] at h
  rw [h]
  have hne : t.reverse ≠ [] := by simpa using ht.1
  simp [tokenWalk, hne]

/-- A token followed by whitespace up to the end of the text is emitted as the
last part: no empty part follows it. -/
theorem tokenWalk_token_trailing (t w : List Char) (b : Bool) (ht : IsToken t)
    (hw : IsGap w) :
    tokenWalk (t ++ w) [] b = [t] := by
  have h := tokenWalk_token_gap t w [] b ht hw
  simp only [List.append_nil] at h
  rw [h]
  simp [tokenWalk]

theorem sixJoined_ne_nil (t0 w1 t1 w2 t2 w3 t3 w4 t4 w5 t5 : List Char) (h0 : IsToken t0) :
    (sixJoined t0 w1 t1 w2 t2 w3 t3 w4 t4 w5 t5).isEmpty = false := by
  obtain ⟨hne, -⟩ := h0
  cases t0 with
  | nil => exact absurd rfl hne
  | cons c cs => simp [sixJoined]

/-- Walk over six tokens and their separators, whatever the flag at the start. -/
theorem tokenWalk_sixJoined (t0 w1 t1 w2 t2 w3 t3 w4 t4 w5 t5 : List Char) (b : Bool)
    (h0 : IsToken t0) (h1 : IsToken t1) (h2 : IsToken t2) (h3 : IsToken t3)
    (h4 : IsToken t4) (h5 : IsToken t5)
    (g1 : IsGap w1) (g2 : IsGap w2) (g3 : IsGap w3) (g4 : IsGap w4) (g5 : IsGap w5) :
    tokenWalk (sixJoined t0 w1 t1 w2 t2 w3 t3 w4 t4 w5 t5) [] b = [t0, t1, t2, t3, t4, t5] := by
  unfold sixJoined
  rw [tokenWalk_token_gap t0 w1 _ b h0 g1, tokenWalk_token_gap t1 w2 _ true h1 g2,
    tokenWalk_token_gap t2 w3 _ true h2 g3, tokenWalk_token_gap t3 w4 _ true h3 g4,
    tokenWalk_token_gap t4 w5 _ true h4 g5, tokenWalk_token_end t5 true h5]

/-- Walk over six tokens, their separators and trailing whitespace. -/
theorem tokenWalk_sixJoined_trailing (t0 w1 t1 w2 t2 w3 t3 w4 t4 w5 t5 w : List Char)
    (h0 : IsToken t0) (h1 : IsToken t1) (h2 : IsToken t2) (h3 : IsToken t3)
    (h4 : IsToken t4) (h5 : IsToken t5)
    (g1 : IsGap w1) (g2 : IsGap w2) (g3 : IsGap w3) (g4 : IsGap w4) (g5 : IsGap w5)
    (g : IsGap w) :
    tokenWalk (sixJoined t0 w1 t1 w2 t2 w3 t3 w4 t4 w5 t5 ++ w) [] false
      = [t0, t1, t2, t3, t4, t5] := by
  unfold sixJoined
  simp only [List.append_assoc]
  rw [tokenWalk_token_gap t0 w1 _ false h0 g1, tokenWalk_token_gap t1 w2 _ true h1 g2,
    tokenWalk_token_gap t2 w3 _ true h2 g3, tokenWalk_token_gap t3 w4 _ true h3 g4,
    tokenWalk_token_gap t4 w5 _ true h4 g5, tokenWalk_token_trailing t5 w true h5 g]

/-- Parts of a text made of six separated tokens. -/
theorem regexSplit_sixTokenText (s t0 t1 t2 t3 t4 t5 : List Char)
    (h : SixTokenText s t0 t1 t2 t3 t4 t5) :
    regexSplit s = [t0, t1, t2, t3, t4, t5] := by
  obtain ⟨w1, w2, w3, w4, w5, g1, g2, g3, g4, g5, h0, h1, h2, h3, h4, h5, rfl⟩ := h
  unfold regexSplit
  rw [sixJoined_ne_nil _ _ _ _ _ _ _ _ _ _ _ h0]
  simpa using tokenWalk_sixJoined t0 w1 t1 w2 t2 w3 t3 w4 t4 w5 t5 false
    h0 h1 h2 h3 h4 h5 g1 g2 g3 g4 g5

/-- Leading whitespace in front of six separated tokens gives seven parts, the
first one empty. -/
theorem regexSplit_leading (w s t0 t1 t2 t3 t4 t5 : List Char) (g : IsGap w)
    (h : SixTokenText s t0 t1 t2 t3 t4 t5) :
    regexSplit (w ++ s) = [[], t0, t1, t2, t3, t4, t5] := by
  obtain ⟨w1, w2, w3, w4, w5, g1, g2, g3, g4, g5, h0, h1, h2, h3, h4, h5, rfl⟩ := h
  have hne : (w ++ sixJoined t0 w1 t1 w2 t2 w3 t3 w4 t4 w5 t5).isEmpty = false := by
    obtain ⟨hw, -⟩ := g
    cases w with
    | nil => exact absurd rfl hw
    | cons c cs => simp
  unfold regexSplit
  rw [hne]
  simp only [Bool.false_eq_true, if_false]
  rw [tokenWalk_gap w _ [] g, tokenWalk_sixJoined t0 w1 t1 w2 t2 w3 t3 w4 t4 w5 t5 true
    h0 h1 h2 h3 h4 h5 g1 g2 g3 g4 g5]
  simp

/-- Trailing whitespace after six separated tokens gives six parts: no empty
part is added at the end. -/
theorem regexSplit_trailing (w s t0 t1 t2 t3 t4 t5 : List Char) (g : IsGap w)
    (h : SixTokenText s t0 t1 t2 t3 t4 t5) :
    regexSplit (s ++ w) = [t0, t1, t2, t3, t4, t5] := by
  obtain ⟨w1, w2, w3, w4, w5, g1, g2, g3, g4, g5, h0, h1, h2, h3, h4, h5, rfl⟩ := h
  have hne : (sixJoined t0 w1 t1 w2 t2 w3 t3 w4 t4 w5 t5 ++ w).isEmpty = false := by
    have := sixJoined_ne_nil t0 w1 t1 w2 t2 w3 t3 w4 t4 w5 t5 h0
    simp only [List.isEmpty_eq_false] at this ⊢
    simp [this]
  unfold regexSplit
  rw [hne]
  simpa using tokenWalk_sixJoined_trailing t0 w1 t1 w2 t2 w3 t3 w4 t4 w5 t5 w
    h0 h1 h2 h3 h4 h5 g1 g2 g3 g4 g5 g

/-- With six parts that `std::stod` accepts, the six assignments run through. -/
theorem assignPose_ok {ν : Type} (lib : Lib ν) (p0 p1 p2 p3 p4 p5 : List Char)
    (v0 v1 v2 v3 v4 v5 : ν) (result : AgentPose3d ν)
    (e0 : lib.stod p0 = .ok v0) (e1 : lib.stod p1 = .ok v1) (e2 : lib.stod p2 = .ok v2)
    (e3 : lib.stod p3 = .ok v3) (e4 : lib.stod p4 = .ok v4) (e5 : lib.stod p5 = .ok v5) :
    assignPose lib p0 p1 p2 p3 p4 p5 result = .ret true ⟨v0, v1, v2, v3, v4, v5⟩ := by
  simp [assignPose, e0, e1, e2, e3, e4, e5]

/-- The member function is `loadPoseString` on the text of the `initial_pose`
child. -/
theorem _LoadModelInitPose_found {ν : Type} (lib : Lib ν) (e : Element) (poseStr : String)
    (result : AgentPose3d ν) (h : e.GetString "initial_pose" "" = (poseStr, true)) :
    _LoadModelInitPose lib e result = loadPoseString lib poseStr.data result := by
  simp [_LoadModelInitPose, h]

/-! ## Claims on `_LoadModelInitPose` -/

/-- C1: for every `initial_pose` text made of exactly six tokens `t0` to `t5`
separated by runs of whitespace, with no whitespace in front, each token
accepted by `std::stod` with value `v0` to `v5`, `_LoadModelInitPose` returns
true and the target pose is `x = v0, y = v1, z = v2, pitch = v3, roll = v4,
yaw = v5`, whatever it held before. -/
theorem loadModelInitPose_six_tokens {ν : Type} (lib : Lib ν) (e : Element)
    (poseStr : String) (t0 t1 t2 t3 t4 t5 : List Char) (v0 v1 v2 v3 v4 v5 : ν)
    (result : AgentPose3d ν)
    (hget : e.GetString "initial_pose" "" = (poseStr, true))
    (htext : SixTokenText poseStr.data t0 t1 t2 t3 t4 t5)
    (e0 : lib.stod t0 = .ok v0) (e1 : lib.stod t1 = .ok v1) (e2 : lib.stod t2 = .ok v2)
    (e3 : lib.stod t3 = .ok v3) (e4 : lib.stod t4 = .ok v4) (e5 : lib.stod t5 = .ok v5) :
    _LoadModelInitPose lib e result = .ret true ⟨v0, v1, v2, v3, v4, v5⟩ := by
  rw [_LoadModelInitPose_found lib e poseStr result hget]
  unfold loadPoseString
  rw [regexSplit_sixTokenText _ _ _ _ _ _ _ htext]
  exact assignPose_ok lib t0 t1 t2 t3 t4 t5 v0 v1 v2 v3 v4 v5 result e0 e1 e2 e3 e4 e5

theorem sampleText_sixTokens :
    SixTokenText "1.0 2.0 3.0 0.0 0.0 1.5708".data "1.0".data "2.0".data "3.0".data
      "0.0".data "0.0".data "1.5708".data :=
  ⟨" ".data, " ".data, " ".data, " ".data, " ".data, by decide, by decide, by decide,
    by decide, by decide, by decide, by decide, by decide, by decide, by decide, by decide,
    by decide⟩

/-- C1 at the text `1.0 2.0 3.0 0.0 0.0 1.5708`: the pose read is
`(1.0, 2.0, 3.0, 0, 0, 1.5708)`. -/
theorem loadModelInitPose_six_tokens_witness :
    SixTokenText "1.0 2.0 3.0 0.0 0.0 1.5708".data "1.0".data "2.0".data "3.0".data
      "0.0".data "0.0".data "1.5708".data ∧
    _LoadModelInitPose decLib (guardBlock "1.0 2.0 3.0 0.0 0.0 1.5708")
      (AgentPose3d.new decLib) = .ret true samplePose :=
  ⟨sampleText_sixTokens,
    loadModelInitPose_six_tokens decLib (guardBlock "1.0 2.0 3.0 0.0 0.0 1.5708")
      "1.0 2.0 3.0 0.0 0.0 1.5708" "1.0".data "2.0".data "3.0".data "0.0".data "0.0".data
      "1.5708".data _ _ _ _ _ _ (AgentPose3d.new decLib) (by decide) sampleText_sixTokens
      rfl rfl rfl rfl rfl rfl⟩

/-- C10: the split on `\s+` is asymmetric at the ends of the text.  For six
tokens accepted by `std::stod`, the text with whitespace in front of them has
seven parts, the first one empty, and `_LoadModelInitPose` returns false with
the pose unmodified; the same tokens followed by trailing whitespace have six
parts, no empty part at the end, and `_LoadModelInitPose` returns true with
the pose set from them. -/
theorem loadModelInitPose_end_asymmetry {ν : Type} (lib : Lib ν) (lead trail : Element)
    (leadStr trailStr : String) (w s t0 t1 t2 t3 t4 t5 : List Char)
    (v0 v1 v2 v3 v4 v5 : ν) (result : AgentPose3d ν)
    (g : IsGap w) (htext : SixTokenText s t0 t1 t2 t3 t4 t5)
    (e0 : lib.stod t0 = .ok v0) (e1 : lib.stod t1 = .ok v1) (e2 : lib.stod t2 = .ok v2)
    (e3 : lib.stod t3 = .ok v3) (e4 : lib.stod t4 = .ok v4) (e5 : lib.stod t5 = .ok v5)
    (hlead : lead.GetString "initial_pose" "" = (leadStr, true))
    (hleadText : leadStr.data = w ++ s)
    (htrail : trail.GetString "initial_pose" "" = (trailStr, true))
    (htrailText : trailStr.data = s ++ w) :
    (regexSplit leadStr.data = [[], t0, t1, t2, t3, t4, t5] ∧
      _LoadModelInitPose lib lead result = .ret false result) ∧
    (regexSplit trailStr.data = [t0, t1, t2, t3, t4, t5] ∧
      _LoadModelInitPose lib trail result = .ret true ⟨v0, v1, v2, v3, v4, v5⟩) := by
  have hl := regexSplit_leading w s t0 t1 t2 t3 t4 t5 g htext
  have ht := regexSplit_trailing w s t0 t1 t2 t3 t4 t5 g htext
  rw [← hleadText] at hl
  rw [← htrailText] at ht
  refine ⟨⟨hl, ?_⟩, ⟨ht, ?_⟩⟩
  · rw [_LoadModelInitPose_found lib lead leadStr result hlead]
    unfold loadPoseString
    rw [hl]
  · rw [_LoadModelInitPose_found lib trail trailStr result htrail]
    unfold loadPoseString
    rw [ht]
    exact assignPose_ok lib t0 t1 t2 t3 t4 t5 v0 v1 v2 v3 v4 v5 result e0 e1 e2 e3 e4 e5

/-- C10 at the tokens `1.0 2.0 3.0 0.0 0.0 1.5708` with two blanks in front,
respectively behind. -/
theorem loadModelInitPose_end_asymmetry_witness :
    (regexSplit "  1.0 2.0 3.0 0.0 0.0 1.5708".data
        = [[], "1.0".data, "2.0".data, "3.0".data, "0.0".data, "0.0".data, "1.5708".data] ∧
      _LoadModelInitPose decLib (guardBlock "  1.0 2.0 3.0 0.0 0.0 1.5708")
        (AgentPose3d.new decLib) = .ret false (AgentPose3d.new decLib)) ∧
    (regexSplit "1.0 2.0 3.0 0.0 0.0 1.5708  ".data
        = ["1.0".data, "2.0".data, "3.0".data, "0.0".data, "0.0".data, "1.5708".data] ∧
      _LoadModelInitPose decLib (guardBlock "1.0 2.0 3.0 0.0 0.0 1.5708  ")
        (AgentPose3d.new decLib) = .ret true samplePose) :=
  loadModelInitPose_end_asymmetry decLib (guardBlock "  1.0 2.0 3.0 0.0 0.0 1.5708")
    (guardBlock "1.0 2.0 3.0 0.0 0.0 1.5708  ") "  1.0 2.0 3.0 0.0 0.0 1.5708"
    "1.0 2.0 3.0 0.0 0.0 1.5708  " "  ".data "1.0 2.0 3.0 0.0 0.0 1.5708".data
    "1.0".data "2.0".data "3.0".data "0.0".data "0.0".data "1.5708".data
    _ _ _ _ _ _ (AgentPose3d.new decLib) (by decide) sampleText_sixTokens
    rfl rfl rfl rfl rfl rfl (by decide) (by decide) (by decide) (by decide)

/-! ### Parts against tokens -/

/-- C5 at the text `1.0 x 3.0 0.0 0.0 1.5708`: six tokens, the second one not a
number.  The call leaves through the exception of `std::stod` instead of
returning false, and the field `x`, whose token precedes the bad one, has
already been overwritten. -/
theorem loadModelInitPose_bad_token :
    (tokens "1.0 x 3.0 0.0 0.0 1.5708".data).length = 6 ∧
    decLib.stod "x".data = .error .invalid_argument ∧
    _LoadModelInitPose decLib (guardBlock "1.0 x 3.0 0.0 0.0 1.5708") (AgentPose3d.new decLib)
      = .raised .invalid_argument
          { AgentPose3d.new decLib with _x := ⟨false, 10, -1⟩ } ∧
    ({ AgentPose3d.new decLib with _x := ⟨false, 10, -1⟩ } : AgentPose3d Dec)
      ≠ AgentPose3d.new decLib := by
  refine ⟨by decide, rfl, by decide, by decide⟩

/-! ## Claims on the registry and the resource path -/

theorem emplace_present {ν : Type} (db : ModelTypeDatabase ν) (k : String) (d d2 : Record ν)
    (h : db.recordAt k = some d) :
    db.Emplace k d2 = .raised .assertion_failed db := by
  unfold ModelTypeDatabase.recordAt at h
  simp [ModelTypeDatabase.Emplace, mapEmplace, h]

/-- C3: registering a type name already in the registry is rejected, not
overwritten.  For every registry holding the record `d` under the key `k`,
`Emplace(k, d2)` ends in the failed assertion on the insertion flag, and
afterwards the registry still maps `k` to `d` and its size is unchanged; the
loop body of `ReadSDF` (lines 280 and 281) stops at that failure with the
object unchanged. -/
theorem emplace_duplicate_rejected {ν : Type} (lib : Lib ν) (db : ModelTypeDatabase ν)
    (k : String) (d d2 : Record ν) (h : db.recordAt k = some d) :
    (∃ db2, db.Emplace k d2 = .raised .assertion_failed db2 ∧
      db2.recordAt k = some d ∧ db2.count = db.count) ∧
    (∀ (e : Element) (st : CrowdSimInterface ν),
      e.GetString "typename" "" = (k, true) → st._modelTypeDB = db →
      modelTypeBody lib e st = .raised .assertion_failed st) := by
  constructor
  · exact ⟨db, emplace_present db k d d2 h, h, rfl⟩
  · intro e st hk hdb
    subst hdb
    simp [modelTypeBody, hk, emplace_present st._modelTypeDB k d (Record.new lib) h]

/-- C3 at the registry holding `guardRecord` under `guard`, with `otherRecord`
as the second definition, and at a second `guard` block met by `ReadSDF`. -/
theorem emplace_duplicate_rejected_witness :
    guardRegistry.recordAt "guard" = some guardRecord ∧
    (∃ db2, guardRegistry.Emplace "guard" otherRecord = .raised .assertion_failed db2 ∧
      db2.recordAt "guard" = some guardRecord ∧ db2.count = guardRegistry.count) ∧
    modelTypeBody decLib goodGuard guardInterface = .raised .assertion_failed guardInterface :=
  have h := emplace_duplicate_rejected decLib guardRegistry "guard" guardRecord otherRecord
    (by decide)
  ⟨by decide, h.1, h.2 goodGuard guardInterface (by decide) rfl⟩

/-- C7 at a configuration without `resource_path`, the environment variable
being unset: `ReadSDF` does not return false; it leaves at the construction of
a `std::string` from the null pointer, before any setting is stored. -/
theorem readSDF_no_resource_path_no_env :
    noResourcePathNode.HasElement "resource_path" = false ∧
    ReadSDF decLib none noResourcePathNode (emptyInterface decLib)
      = .raised .null_string (emptyInterface decLib) ∧
    (∃ st, ReadSDF decLib (some "/env/menge") noResourcePathNode (emptyInterface decLib)
      = .ret true st ∧ st._resourcePath = "/env/menge") := by
  refine ⟨by decide, by decide, ⟨_, rfl, by decide⟩⟩

/-! ## The `model_type` loop -/

theorem lookupRecord_append {ν : Type} (k : String) (xs ys : List (String × Record ν)) :
    lookupRecord k (xs ++ ys) =
      match lookupRecord k xs with
      | some r => some r
      | none => lookupRecord k ys := by
  induction xs with
  | nil => simp [lookupRecord]
  | cons p rest ih =>
    by_cases hp : p.1 = k
    · simp [lookupRecord, hp]
    · simp [lookupRecord, hp, ih]

theorem map_absent_key {ν : Type} (k : String) (r : Record ν) (recs : List (String × Record ν))
    (h : lookupRecord k recs = none) :
    recs.map (fun p => if p.1 = k then (p.1, r) else p) = recs := by
  induction recs with
  | nil => rfl
  | cons p rest ih =>
    by_cases hp : p.1 = k
    · simp [lookupRecord, hp] at h
    · simp only [lookupRecord, hp, if_false] at h
      simp [hp, ih h]

/-- Writing through the pointer returned by a successful `Emplace` replaces
the record just inserted. -/
theorem modifyRecord_fresh {ν : Type} (k : String) (r0 r : Record ν)
    (recs : List (String × Record ν)) (h : lookupRecord k recs = none) :
    modifyRecord k r ⟨recs ++ [(k, r0)]⟩ = ⟨recs ++ [(k, r)]⟩ := by
  simp [modifyRecord, map_absent_key k r recs h]

/-- The loop body on a block whose type name is present and not yet
registered. -/
theorem modelTypeBody_fresh {ν : Type} (lib : Lib ν) (e : Element) (s : String)
    (st : CrowdSimInterface ν) (hs : e.GetString "typename" "" = (s, true))
    (hfresh : lookupRecord s st._modelTypeDB._records = none) :
    modelTypeBody lib e st =
      match fillRecord lib e s (Record.new lib) with
      | .ret b r => .ret b { st with _modelTypeDB := ⟨st._modelTypeDB._records ++ [(s, r)]⟩ }
      | .raised ex r =>
        .raised ex { st with _modelTypeDB := ⟨st._modelTypeDB._records ++ [(s, r)]⟩ } := by
  simp only [modelTypeBody, hs, ModelTypeDatabase.Emplace, mapEmplace, hfresh]
  cases hfill : fillRecord lib e s (Record.new lib) with
  | ret b r => simp [modifyRecord_fresh s (Record.new lib) r _ hfresh]
  | raised ex r => simp [modifyRecord_fresh s (Record.new lib) r _ hfresh]

/-- When the loop body runs to its end. -/
theorem modelTypeBody_ret_true {ν : Type} (lib : Lib ν) (e : Element)
    (st st1 : CrowdSimInterface ν) :
    modelTypeBody lib e st = .ret true st1 ↔
      BodyOk lib e ∧ lookupRecord (typeNameOf e) st._modelTypeDB._records = none ∧
      st1 = { st with _modelTypeDB :=
        ⟨st._modelTypeDB._records ++ [(typeNameOf e, blockRecord lib e)]⟩ } := by
  cases hs : e.GetString "typename" "" with
  | mk s found =>
    have hname : typeNameOf e = s := by simp [typeNameOf, hs]
    cases found with
    | false => simp [modelTypeBody, hs, BodyOk]
    | true =>
      cases hlook : lookupRecord s st._modelTypeDB._records with
      | some d =>
        simp [modelTypeBody, hs, ModelTypeDatabase.Emplace, mapEmplace, hlook, hname]
      | none =>
        rw [modelTypeBody_fresh lib e s st hs hlook]
        cases hfill : fillRecord lib e s (Record.new lib) with
        | ret b r =>
          cases b with
          | true =>
            simp [BodyOk, hs, hname, hlook, hfill, blockRecord, Outcome.state, eq_comm]
          | false => simp [BodyOk, hs, hname, hlook, hfill]
        | raised ex r => simp [BodyOk, hs, hname, hlook, hfill]

theorem lookupRecord_snoc_none {ν : Type} (k k0 : String) (r0 : Record ν)
    (recs : List (String × Record ν)) :
    lookupRecord k (recs ++ [(k0, r0)]) = none ↔ lookupRecord k recs = none ∧ k0 ≠ k := by
  rw [lookupRecord_append]
  cases h : lookupRecord k recs with
  | some d => simp
  | none =>
    by_cases hk : k0 = k
    · simp [lookupRecord, hk]
    · simp [lookupRecord, hk]

/-- When the `model_type` loop runs to its end: every visited block passes the
body, its type name is neither registered before the call nor repeated, and
the registry grows by one record per block, in document order; nothing else
changes. -/
theorem modelTypeLoop_ret_true {ν : Type} (lib : Lib ν) (sibs : List Element)
    (st st1 : CrowdSimInterface ν) :
    modelTypeLoop lib sibs st = .ret true st1 ↔
      (∀ e ∈ sibs.filter (fun e => decide (e.name = "model_type")), BodyOk lib e) ∧
      (∀ e ∈ sibs.filter (fun e => decide (e.name = "model_type")),
        lookupRecord (typeNameOf e) st._modelTypeDB._records = none) ∧
      ((sibs.filter (fun e => decide (e.name = "model_type"))).map typeNameOf).Nodup ∧
      st1 = { st with _modelTypeDB :=
        ⟨st._modelTypeDB._records ++
          (sibs.filter (fun e => decide (e.name = "model_type"))).map
            (fun e => (typeNameOf e, blockRecord lib e))⟩ } := by
  induction sibs generalizing st with
  | nil =>
    simp only [modelTypeLoop, List.filter_nil, List.map_nil, List.append_nil,
      List.not_mem_nil, false_implies, implies_true, List.nodup_nil, true_and]
    constructor
    · intro h
      cases h
      rfl
    · intro h
      rw [h]
  | cons e rest ih =>
    by_cases hn : e.name = "model_type"
    · simp only [modelTypeLoop, hn, if_true, List.filter_cons, decide_True,
        List.mem_cons, forall_eq_or_imp, List.map_cons, List.nodup_cons]
      cases hbody : modelTypeBody lib e st with
      | raised ex st2 =>
        have hno : ¬ (BodyOk lib e ∧
            lookupRecord (typeNameOf e) st._modelTypeDB._records = none) := by
          intro hc
          have := (modelTypeBody_ret_true lib e st _).2 ⟨hc.1, hc.2, rfl⟩
          rw [hbody] at this
          cases this
        constructor
        · intro h
          cases h
        · intro h
          exact absurd ⟨h.1.1, h.2.1.1⟩ hno
      | ret b st2 =>
        cases b with
        | false =>
          have hno : ¬ (BodyOk lib e ∧
              lookupRecord (typeNameOf e) st._modelTypeDB._records = none) := by
            intro hc
            have := (modelTypeBody_ret_true lib e st _).2 ⟨hc.1, hc.2, rfl⟩
            rw [hbody] at this
            cases this
          constructor
          · intro h
            cases h
          · intro h
            exact absurd ⟨h.1.1, h.2.1.1⟩ hno
        | true =>
          obtain ⟨hok, hfresh, hst2⟩ := (modelTypeBody_ret_true lib e st st2).1 hbody
          simp only []
          rw [ih st2]
          subst hst2
          simp only [lookupRecord_snoc_none]
          constructor
          · rintro ⟨h1, h2, h3, h4⟩
            refine ⟨⟨hok, h1⟩, ⟨hfresh, fun a ha => (h2 a ha).1⟩, ⟨?_, h3⟩, ?_⟩
            · intro hmem
              obtain ⟨a, ha, hka⟩ := List.mem_map.1 hmem
              exact (h2 a ha).2 hka.symm
            · rw [h4]
              simp
          · rintro ⟨⟨-, h1⟩, ⟨-, h2⟩, ⟨hnot, h3⟩, h4⟩
            refine ⟨h1, fun a ha => ⟨h2 a ha, ?_⟩, h3, ?_⟩
            · intro hka
              exact hnot (List.mem_map.2 ⟨a, ha, hka.symm⟩)
            · rw [h4]
              simp
    · simp only [modelTypeLoop, hn, if_false, List.filter_cons, decide_False]
      exact ih st

/-! ## Filling a record -/

/-- Six separated tokens accepted by `std::stod` are read into the pose. -/
theorem loadPoseString_sixTokens {ν : Type} (lib : Lib ν) (s t0 t1 t2 t3 t4 t5 : List Char)
    (v0 v1 v2 v3 v4 v5 : ν) (result : AgentPose3d ν)
    (htext : SixTokenText s t0 t1 t2 t3 t4 t5)
    (e0 : lib.stod t0 = .ok v0) (e1 : lib.stod t1 = .ok v1) (e2 : lib.stod t2 = .ok v2)
    (e3 : lib.stod t3 = .ok v3) (e4 : lib.stod t4 = .ok v4) (e5 : lib.stod t5 = .ok v5) :
    loadPoseString lib s result = .ret true ⟨v0, v1, v2, v3, v4, v5⟩ := by
  unfold loadPoseString
  rw [regexSplit_sixTokenText _ _ _ _ _ _ _ htext]
  exact assignPose_ok lib t0 t1 t2 t3 t4 t5 v0 v1 v2 v3 v4 v5 result e0 e1 e2 e3 e4 e5

/-- The six assignments never end in `return false`; when they run through,
every part was accepted and the pose holds the six values in order. -/
theorem assignPose_ret {ν : Type} (lib : Lib ν) (p0 p1 p2 p3 p4 p5 : List Char)
    (result pose : AgentPose3d ν) (b : Bool)
    (h : assignPose lib p0 p1 p2 p3 p4 p5 result = .ret b pose) :
    b = true ∧ ∃ v0 v1 v2 v3 v4 v5 : ν,
      lib.stod p0 = .ok v0 ∧ lib.stod p1 = .ok v1 ∧ lib.stod p2 = .ok v2 ∧
      lib.stod p3 = .ok v3 ∧ lib.stod p4 = .ok v4 ∧ lib.stod p5 = .ok v5 ∧
      pose = ⟨v0, v1, v2, v3, v4, v5⟩ := by
  unfold assignPose at h
  cases h0 : lib.stod p0 with
  | error ex => simp [h0] at h
  | ok v0 =>
    cases h1 : lib.stod p1 with
    | error ex => simp [h0, h1] at h
    | ok v1 =>
      cases h2 : lib.stod p2 with
      | error ex => simp [h0, h1, h2] at h
      | ok v2 =>
        cases h3 : lib.stod p3 with
        | error ex => simp [h0, h1, h2, h3] at h
        | ok v3 =>
          cases h4 : lib.stod p4 with
          | error ex => simp [h0, h1, h2, h3, h4] at h
          | ok v4 =>
            cases h5 : lib.stod p5 with
            | error ex => simp [h0, h1, h2, h3, h4, h5] at h
            | ok v5 =>
              simp only [h0, h1, h2, h3, h4, h5, Outcome.ret.injEq] at h
              exact ⟨h.1.symm, v0, v1, v2, v3, v4, v5, rfl, rfl, rfl, rfl, rfl, rfl, h.2.symm⟩

/-- A pose text is read successfully only when it splits into six parts that
`std::stod` accepts; the pose then holds their values in order. -/
theorem loadPoseString_ret_true {ν : Type} (lib : Lib ν) (s : List Char)
    (result pose : AgentPose3d ν) (h : loadPoseString lib s result = .ret true pose) :
    ∃ (p0 p1 p2 p3 p4 p5 : List Char) (v0 v1 v2 v3 v4 v5 : ν),
      regexSplit s = [p0, p1, p2, p3, p4, p5] ∧
      lib.stod p0 = .ok v0 ∧ lib.stod p1 = .ok v1 ∧ lib.stod p2 = .ok v2 ∧
      lib.stod p3 = .ok v3 ∧ lib.stod p4 = .ok v4 ∧ lib.stod p5 = .ok v5 ∧
      pose = ⟨v0, v1, v2, v3, v4, v5⟩ := by
  unfold loadPoseString at h
  split at h
  · rename_i p0 p1 p2 p3 p4 p5 heq
    obtain ⟨-, v0, v1, v2, v3, v4, v5, hv⟩ := assignPose_ret lib p0 p1 p2 p3 p4 p5 _ _ _ h
    exact ⟨p0, p1, p2, p3, p4, p5, v0, v1, v2, v3, v4, v5, heq, hv⟩
  · cases h

/-- A complete block fills its record. -/
theorem fillRecord_complete {ν : Type} (lib : Lib ν) (e : Element) (s : String)
    (r0 : Record ν) (h : CompleteBlock lib e) :
    ∃ r, fillRecord lib e s r0 = .ret true r := by
  obtain ⟨tn, fn, an, sp, ip, t0, t1, t2, t3, t4, t5, v0, v1, v2, v3, v4, v5,
    -, hfn, han, hsp, hip, htext, e0, e1, e2, e3, e4, e5⟩ := h
  have hpose : ∀ result : AgentPose3d ν,
      _LoadModelInitPose lib e result = .ret true ⟨v0, v1, v2, v3, v4, v5⟩ := by
    intro result
    rw [_LoadModelInitPose_found lib e ip.value result (by simp [Element.GetString, hip])]
    exact loadPoseString_sixTokens lib _ t0 t1 t2 t3 t4 t5 v0 v1 v2 v3 v4 v5 result htext
      e0 e1 e2 e3 e4 e5
  simp [fillRecord, Element.GetString, Element.GetDouble, Element.HasElement, hfn, han, hsp,
    hip, hpose]

/-- What a filled record holds: the type name, the values of the `filename`,
`animation` and `animation_speed` children, and the pose read from the
`initial_pose` child. -/
theorem fillRecord_ret_true {ν : Type} (lib : Lib ν) (e : Element) (s : String)
    (r0 r : Record ν) (h : fillRecord lib e s r0 = .ret true r) :
    r.typeName = s ∧
    e.GetString "filename" "" = (r.fileName, true) ∧
    e.GetString "animation" "" = (r.animation, true) ∧
    e.GetDouble lib "animation_speed" lib.zero = (r.animationSpeed, true) ∧
    e.HasElement "initial_pose" = true ∧
    _LoadModelInitPose lib e r0.pose = .ret true r.pose ∧
    r.modelFilePath = r0.modelFilePath := by
  unfold fillRecord at h
  cases hf : e.GetString "filename" "" with
  | mk f ff =>
    cases ff with
    | false => simp [hf] at h
    | true =>
      cases ha : e.GetString "animation" "" with
      | mk a af =>
        cases af with
        | false => simp [hf, ha] at h
        | true =>
          cases hsp : e.GetDouble lib "animation_speed" lib.zero with
          | mk sp sf =>
            cases sf with
            | false => simp [hf, ha, hsp] at h
            | true =>
              cases hip : e.HasElement "initial_pose" with
              | false => simp [hf, ha, hsp, hip] at h
              | true =>
                cases hl : _LoadModelInitPose lib e r0.pose with
                | raised ex pose => simp [hf, ha, hsp, hip, hl] at h
                | ret b pose =>
                  simp only [hf, ha, hsp, hip, hl, Bool.not_true, Bool.false_eq_true,
                    if_false, Outcome.ret.injEq] at h
                  obtain ⟨hb, hr⟩ := h
                  subst hb
                  subst hr
                  simp

/-! ## ReadSDF as a whole -/

theorem externalAgentLoop_eq (sibs : List Element) (names : List String) :
    externalAgentLoop sibs names =
      names ++ (sibs.filter (fun e => decide (e.name = "external_agent"))).map
        Element.value := by
  induction sibs generalizing names with
  | nil => simp [externalAgentLoop]
  | cons e rest ih =>
    by_cases hn : e.name = "external_agent"
    · simp [externalAgentLoop, hn, ih]
    · simp [externalAgentLoop, hn, ih]

theorem findNamed_none_filter (key : String) (sibs : List Element)
    (h : findNamed key sibs = none) :
    sibs.filter (fun e => decide (e.name = key)) = [] := by
  induction sibs with
  | nil => rfl
  | cons e rest ih =>
    by_cases hn : e.name = key
    · simp [findNamed, hn] at h
    · simp only [findNamed, hn, if_false] at h
      simp [hn, ih h]

/-- A successful `ReadSDF`, read backwards: the path was resolved, the three
scalar settings were found, the `model_type` loop ran to its end, and the
final object is the initial one with the settings stored, one record appended
per block and the `external_agent` values appended to the name list. -/
theorem readSDF_ret_true {ν : Type} (lib : Lib ν) (env : Option String) (sdf : Element)
    (st st1 : CrowdSimInterface ν) (h : ReadSDF lib env sdf st = .ret true st1) :
    ∃ (path : String) (b sc t : Element),
      resolveResourcePath env sdf = .ok path ∧
      findNamed "behavior_file" sdf.children = some b ∧
      findNamed "scene_file" sdf.children = some sc ∧
      findNamed "update_time_step" sdf.children = some t ∧
      sdf.HasElement "model_type" = true ∧
      (∀ e ∈ modelTypes sdf, BodyOk lib e) ∧
      (∀ e ∈ modelTypes sdf, lookupRecord (typeNameOf e) st._modelTypeDB._records = none) ∧
      ((modelTypes sdf).map typeNameOf).Nodup ∧
      st1 = { _modelTypeDB := ⟨st._modelTypeDB._records ++
                (modelTypes sdf).map (fun e => (typeNameOf e, blockRecord lib e))⟩,
              _simTimeStep := lib.getFloat t.value,
              _resourcePath := path,
              _behaviorFile := b.value,
              _sceneFile := sc.value,
              _externalAgents := st._externalAgents ++ externalAgentNames sdf } := by
  unfold ReadSDF at h
  cases hp : resolveResourcePath env sdf with
  | error ex => simp [hp] at h
  | ok path =>
    cases hb : findNamed "behavior_file" sdf.children with
    | none => simp [hp, hb] at h
    | some b =>
      cases hsc : findNamed "scene_file" sdf.children with
      | none => simp [hp, hb, hsc] at h
      | some sc =>
        cases ht : findNamed "update_time_step" sdf.children with
        | none => simp [hp, hb, hsc, ht] at h
        | some t =>
          cases hm : sdf.HasElement "model_type" with
          | false => simp [hp, hb, hsc, ht, hm] at h
          | true =>
            simp only [hp, hb, hsc, ht, hm, Bool.not_true, Bool.false_eq_true, if_false] at h
            cases hloop : modelTypeLoop lib sdf.children
                { st with _resourcePath := path, _behaviorFile := b.value,
                          _sceneFile := sc.value, _simTimeStep := lib.getFloat t.value } with
            | raised ex st5 => simp [hloop] at h
            | ret r st5 =>
              cases r with
              | false => simp [hloop] at h
              | true =>
                simp only [hloop, Outcome.ret.injEq, true_and] at h
                obtain ⟨h1, h2, h3, h4⟩ := (modelTypeLoop_ret_true lib _ _ _).1 hloop
                refine ⟨path, b, sc, t, rfl, rfl, rfl, rfl, rfl, h1, h2, h3, ?_⟩
                rw [← h, h4]
                simp [externalAgentLoop_eq, externalAgentNames, modelTypes]

/-- A configuration that satisfies all required settings is read
successfully, provided none of its type names is registered beforehand. -/
theorem readSDF_valid {ν : Type} (lib : Lib ν) (env : Option String) (sdf : Element)
    (st : CrowdSimInterface ν) (hv : ValidConfig lib env sdf)
    (hfresh : ∀ e ∈ modelTypes sdf,
      lookupRecord (typeNameOf e) st._modelTypeDB._records = none) :
    ∃ (path : String) (b sc t : Element),
      resolveResourcePath env sdf = .ok path ∧
      findNamed "behavior_file" sdf.children = some b ∧
      findNamed "scene_file" sdf.children = some sc ∧
      findNamed "update_time_step" sdf.children = some t ∧
      ReadSDF lib env sdf st = .ret true
        { _modelTypeDB := ⟨st._modelTypeDB._records ++
            (modelTypes sdf).map (fun e => (typeNameOf e, blockRecord lib e))⟩,
          _simTimeStep := lib.getFloat t.value,
          _resourcePath := path,
          _behaviorFile := b.value,
          _sceneFile := sc.value,
          _externalAgents := st._externalAgents ++ externalAgentNames sdf } := by
  obtain ⟨hpath, hbeh, hscene, hstep, hmodel, hblocks, hdistinct⟩ := hv
  have hp : ∃ path, resolveResourcePath env sdf = .ok path := by
    unfold resolveResourcePath
    cases hr : findNamed "resource_path" sdf.children with
    | some c => exact ⟨c.value, rfl⟩
    | none =>
      cases env with
      | some p => exact ⟨p, rfl⟩
      | none => simp [Element.HasElement, hr] at hpath
  obtain ⟨path, hp⟩ := hp
  obtain ⟨b, hb⟩ := Option.isSome_iff_exists.1 hbeh
  obtain ⟨sc, hsc⟩ := Option.isSome_iff_exists.1 hscene
  obtain ⟨t, ht⟩ := Option.isSome_iff_exists.1 hstep
  refine ⟨path, b, sc, t, hp, hb, hsc, ht, ?_⟩
  have hok : ∀ e ∈ modelTypes sdf, BodyOk lib e := by
    intro e he
    have hc := hblocks e he
    obtain ⟨r, hr⟩ := fillRecord_complete lib e (typeNameOf e) (Record.new lib) hc
    obtain ⟨tn, _, _, _, _, _, _, _, _, _, _, _, _, _, _, _, _, htn, _⟩ := hc
    exact ⟨by simp [Element.GetString, htn], r, hr⟩
  have hloop := (modelTypeLoop_ret_true lib sdf.children
      { st with _resourcePath := path, _behaviorFile := b.value,
                _sceneFile := sc.value, _simTimeStep := lib.getFloat t.value } _).2
      ⟨hok, hfresh, hdistinct, rfl⟩
  unfold ReadSDF
  simp only [hp, hb, hsc, ht, hmodel, Bool.not_true, Bool.false_eq_true, if_false, hloop]
  simp [externalAgentLoop_eq, externalAgentNames, modelTypes]

/-! ## Sample configurations are valid -/

theorem goodGuard_complete : CompleteBlock decLib goodGuard :=
  ⟨leaf "typename" "guard", leaf "filename" "guard.dae", leaf "animation" "walk",
    leaf "animation_speed" "1.0", leaf "initial_pose" "1.0 2.0 3.0 0.0 0.0 1.5708",
    "1.0".data, "2.0".data, "3.0".data, "0.0".data, "0.0".data, "1.5708".data,
    _, _, _, _, _, _, rfl, rfl, rfl, rfl, rfl, sampleText_sixTokens, rfl, rfl, rfl, rfl, rfl, rfl⟩

theorem nurseBlock_complete : CompleteBlock decLib nurseBlock :=
  ⟨leaf "typename" "nurse", leaf "filename" "nurse.dae", leaf "animation" "stand",
    leaf "animation_speed" "0.5", leaf "initial_pose" "4 5 6 0 0 0",
    "4".data, "5".data, "6".data, "0".data, "0".data, "0".data,
    _, _, _, _, _, _, rfl, rfl, rfl, rfl, rfl,
    ⟨" ".data, " ".data, " ".data, " ".data, " ".data, by decide, by decide, by decide,
      by decide, by decide, by decide, by decide, by decide, by decide, by decide, by decide,
      by decide⟩,
    rfl, rfl, rfl, rfl, rfl, rfl⟩

theorem agentlessNode_valid (step : String) : ValidConfig decLib none (agentlessNode step) where
  path := Or.inl rfl
  behavior := rfl
  scene := rfl
  step := rfl
  model := rfl
  blocks := by
    intro e he
    have hm : modelTypes (agentlessNode step) = [goodGuard] := rfl
    rw [hm] at he
    simp only [List.mem_singleton] at he
    subst he
    exact goodGuard_complete
  distinct := by
    have hm : (modelTypes (agentlessNode step)).map typeNameOf = ["guard"] := rfl
    rw [hm]
    decide

theorem crowdNode_valid : ValidConfig decLib none crowdNode where
  path := Or.inl rfl
  behavior := rfl
  scene := rfl
  step := rfl
  model := rfl
  blocks := by
    intro e he
    have hm : modelTypes crowdNode = [goodGuard, nurseBlock] := rfl
    rw [hm] at he
    simp only [List.mem_cons, List.mem_singleton, List.not_mem_nil, or_false] at he
    rcases he with he | he
    · subst he
      exact goodGuard_complete
    · subst he
      exact nurseBlock_complete
  distinct := by
    have hm : (modelTypes crowdNode).map typeNameOf = ["guard", "nurse"] := rfl
    rw [hm]
    decide

theorem emptyInterface_fresh {ν : Type} (lib : Lib ν) (sdf : Element) :
    ∀ e ∈ modelTypes sdf,
      lookupRecord (typeNameOf e) (emptyInterface lib)._modelTypeDB._records = none := by
  intro e _
  rfl

/-! ## Claims on ReadSDF -/

/-- C8: zero external agents is a valid configuration.  For every
configuration tree that satisfies all required settings and contains no
`external_agent` element, read into an object none of whose registered type
names it repeats, `ReadSDF` returns true and adds no name to the external
agent list: a list that was empty is left empty. -/
theorem readSDF_no_external_agent {ν : Type} (lib : Lib ν) (env : Option String)
    (sdf : Element) (st : CrowdSimInterface ν) (hv : ValidConfig lib env sdf)
    (hfresh : ∀ e ∈ modelTypes sdf,
      lookupRecord (typeNameOf e) st._modelTypeDB._records = none)
    (hnone : sdf.HasElement "external_agent" = false) :
    ∃ st1, ReadSDF lib env sdf st = .ret true st1 ∧
      st1._externalAgents = st._externalAgents ∧
      (st._externalAgents = [] → st1._externalAgents = []) := by
  obtain ⟨path, b, sc, t, -, -, -, -, hread⟩ := readSDF_valid lib env sdf st hv hfresh
  have hnames : externalAgentNames sdf = [] := by
    unfold externalAgentNames
    rw [findNamed_none_filter "external_agent" sdf.children
      (by simpa [Element.HasElement] using hnone)]
    rfl
  refine ⟨_, hread, ?_, ?_⟩
  · simp [hnames]
  · intro hempty
    simp [hnames, hempty]

/-- C8 at a configuration with one block and no `external_agent` element. -/
theorem readSDF_no_external_agent_witness :
    ValidConfig decLib none (agentlessNode "0.1") ∧
    (agentlessNode "0.1").HasElement "external_agent" = false ∧
    ∃ st1, ReadSDF decLib none (agentlessNode "0.1") (emptyInterface decLib) = .ret true st1 ∧
      st1._externalAgents = [] :=
  have h := readSDF_no_external_agent decLib none (agentlessNode "0.1") (emptyInterface decLib)
    (agentlessNode_valid "0.1") (emptyInterface_fresh decLib _) rfl
  match h with
  | ⟨st1, h1, _, h3⟩ => ⟨agentlessNode_valid "0.1", rfl, st1, h1, h3 rfl⟩

theorem getString_found (e c : Element) (key : String)
    (h : findNamed key e.children = some c) :
    e.GetString key "" = (c.value, true) := by
  simp [Element.GetString, h]

theorem getString_flag (e : Element) (key dflt : String) :
    (e.GetString key dflt).2 = e.HasElement key := by
  unfold Element.GetString Element.HasElement
  cases findNamed key e.children <;> rfl

theorem getDouble_flag {ν : Type} (lib : Lib ν) (e : Element) (key : String) (dflt : ν) :
    (e.GetDouble lib key dflt).2 = e.HasElement key := by
  unfold Element.GetDouble Element.HasElement
  cases findNamed key e.children <;> rfl

/-- Lookup in a list of records built from blocks with pairwise distinct type
names. -/
theorem lookupRecord_blocks {ν : Type} (f : Element → Record ν) (blocks : List Element)
    (hnodup : (blocks.map typeNameOf).Nodup) (e : Element) (he : e ∈ blocks) :
    lookupRecord (typeNameOf e) (blocks.map (fun a => (typeNameOf a, f a))) = some (f e) := by
  induction blocks with
  | nil => simp at he
  | cons a rest ih =>
    simp only [List.map_cons, List.nodup_cons] at hnodup
    by_cases hk : typeNameOf a = typeNameOf e
    · have hea : e = a := by
        rcases List.mem_cons.1 he with h | h
        · exact h
        · exact absurd (hk ▸ List.mem_map.2 ⟨e, h, rfl⟩) hnodup.1
      subst hea
      simp [lookupRecord]
    · have hrest : e ∈ rest := by
        rcases List.mem_cons.1 he with h | h
        · exact absurd (h ▸ rfl) hk
        · exact h
      simp [lookupRecord, hk, ih hnodup.2 hrest]

/-- C9: after a successful `ReadSDF` over a configuration with `n`
`model_type` blocks, read into an object with an empty registry and an empty
external agent list, the type names of the blocks are pairwise distinct and
the registry holds exactly `n` records, one under each block's type name; each
record's `typeName` is its key and its `fileName`, `animation`,
`animationSpeed` and `pose` are the block's `filename`, `animation`,
`animation_speed` and the six values `std::stod` reads from the parts of its
`initial_pose`; the external agent list is the `external_agent` values in
document order. -/
theorem readSDF_success_registry {ν : Type} (lib : Lib ν) (env : Option String)
    (sdf : Element) (st st1 : CrowdSimInterface ν)
    (hread : ReadSDF lib env sdf st = .ret true st1)
    (hreg : st._modelTypeDB._records = []) (hext : st._externalAgents = []) :
    st1._modelTypeDB.count = (modelTypes sdf).length ∧
    ((modelTypes sdf).map typeNameOf).Nodup ∧
    (∀ e ∈ modelTypes sdf, ∃ r : Record ν,
      e.GetString "typename" "" = (typeNameOf e, true) ∧
      st1._modelTypeDB.recordAt (typeNameOf e) = some r ∧
      r.typeName = typeNameOf e ∧
      e.GetString "filename" "" = (r.fileName, true) ∧
      e.GetString "animation" "" = (r.animation, true) ∧
      e.GetDouble lib "animation_speed" lib.zero = (r.animationSpeed, true) ∧
      ∃ (poseStr : String) (p0 p1 p2 p3 p4 p5 : List Char) (v0 v1 v2 v3 v4 v5 : ν),
        e.GetString "initial_pose" "" = (poseStr, true) ∧
        regexSplit poseStr.data = [p0, p1, p2, p3, p4, p5] ∧
        lib.stod p0 = .ok v0 ∧ lib.stod p1 = .ok v1 ∧ lib.stod p2 = .ok v2 ∧
        lib.stod p3 = .ok v3 ∧ lib.stod p4 = .ok v4 ∧ lib.stod p5 = .ok v5 ∧
        r.pose = ⟨v0, v1, v2, v3, v4, v5⟩) ∧
    st1._externalAgents = externalAgentNames sdf := by
  obtain ⟨path, b, sc, t, -, -, -, -, -, hok, -, hnodup, hst1⟩ :=
    readSDF_ret_true lib env sdf st st1 hread
  subst hst1
  refine ⟨?_, hnodup, ?_, ?_⟩
  · simp [ModelTypeDatabase.count, hreg]
  · intro e he
    obtain ⟨htn, r, hfill⟩ := hok e he
    have hblock : blockRecord lib e = r := by simp [blockRecord, hfill, Outcome.state]
    obtain ⟨h1, h2, h3, h4, h5, h6, -⟩ :=
      fillRecord_ret_true lib e (typeNameOf e) (Record.new lib) r hfill
    obtain ⟨ip, hip⟩ := Option.isSome_iff_exists.1 h5
    have hget := getString_found e ip "initial_pose" hip
    rw [_LoadModelInitPose_found lib e ip.value _ hget] at h6
    obtain ⟨p0, p1, p2, p3, p4, p5, v0, v1, v2, v3, v4, v5, hparts⟩ :=
      loadPoseString_ret_true lib _ _ _ h6
    refine ⟨r, ?_, ?_, h1, h2, h3, h4, ip.value, p0, p1, p2, p3, p4, p5,
      v0, v1, v2, v3, v4, v5, hget, hparts⟩
    · exact Prod.ext rfl htn
    · simp only [ModelTypeDatabase.recordAt, hreg, List.nil_append]
      rw [lookupRecord_blocks (blockRecord lib) (modelTypes sdf) hnodup e he, hblock]
  · simp [hext]

/-- C9 at the configuration `crowdNode`: two records, under `guard` and
`nurse`, and the external agents `robot1`, `robot2`. -/
theorem readSDF_success_registry_witness :
    ReadSDF decLib none crowdNode (emptyInterface decLib) = .ret true crowdLoaded ∧
    crowdLoaded._modelTypeDB.count = 2 ∧
    crowdLoaded._modelTypeDB.recordAt "guard" = some guardRecord ∧
    crowdLoaded._modelTypeDB.recordAt "nurse" = some nurseRecord ∧
    crowdLoaded._modelTypeDB.count = (modelTypes crowdNode).length ∧
    crowdLoaded._externalAgents = externalAgentNames crowdNode :=
  have h := readSDF_success_registry decLib none crowdNode (emptyInterface decLib)
    crowdLoaded rfl rfl rfl
  ⟨rfl, rfl, rfl, rfl, h.1, h.2.2.2⟩

/-! ## Missing settings -/

/-- With a required setting missing, `ReadSDF` never returns true. -/
theorem readSDF_missing_setting_not_true {ν : Type} (lib : Lib ν) (env : Option String)
    (sdf : Element) (st : CrowdSimInterface ν) (h : MissingSetting sdf) :
    ∀ st1, ReadSDF lib env sdf st ≠ .ret true st1 := by
  intro st1 hread
  obtain ⟨path, b, sc, t, -, hb, hsc, ht, hm, hok, -, -, -⟩ :=
    readSDF_ret_true lib env sdf st st1 hread
  rcases h with h | h | h | h | ⟨e, he, h⟩
  · simp [Element.HasElement, hb] at h
  · simp [Element.HasElement, hsc] at h
  · simp [Element.HasElement, ht] at h
  · simp [hm] at h
  · obtain ⟨htn, r, hfill⟩ := hok e he
    obtain ⟨-, h2, h3, h4, h5, -, -⟩ :=
      fillRecord_ret_true lib e (typeNameOf e) (Record.new lib) r hfill
    have g1 : e.HasElement "typename" = true := by rw [← getString_flag e "typename" "", htn]
    have g2 : e.HasElement "filename" = true := by rw [← getString_flag e "filename" "", h2]
    have g3 : e.HasElement "animation" = true := by rw [← getString_flag e "animation" "", h3]
    have g4 : e.HasElement "animation_speed" = true := by
      rw [← getDouble_flag lib e "animation_speed" lib.zero, h4]
    rcases h with h | h | h | h | h
    · simp [g1] at h
    · simp [g2] at h
    · simp [g3] at h
    · simp [g4] at h
    · simp [h5] at h

/-- With the resource path resolved and one of the scalar settings or every
`model_type` block missing, `ReadSDF` returns false. -/
theorem readSDF_missing_scalar_setting {ν : Type} (lib : Lib ν) (env : Option String)
    (sdf : Element) (st : CrowdSimInterface ν) (path : String)
    (hp : resolveResourcePath env sdf = .ok path)
    (h : sdf.HasElement "behavior_file" = false ∨ sdf.HasElement "scene_file" = false ∨
      sdf.HasElement "update_time_step" = false ∨ sdf.HasElement "model_type" = false) :
    ∃ st1, ReadSDF lib env sdf st = .ret false st1 := by
  unfold ReadSDF
  simp only [hp]
  cases hb : findNamed "behavior_file" sdf.children with
  | none => exact ⟨_, rfl⟩
  | some b =>
    cases hsc : findNamed "scene_file" sdf.children with
    | none => exact ⟨_, rfl⟩
    | some sc =>
      cases ht : findNamed "update_time_step" sdf.children with
      | none => exact ⟨_, rfl⟩
      | some t =>
        cases hm : sdf.HasElement "model_type" with
        | false =>
          simp only [Bool.not_false, if_true]
          exact ⟨_, rfl⟩
        | true =>
          simp [Element.HasElement, hb, hsc, ht] at h
          simp [Element.HasElement, h] at hm

/-- C4 at two configurations with a missing setting.  In the first the second
block lacks `typename` and the first block has a pose token that is not a
number: `ReadSDF` leaves through the exception of `std::stod`.  In the second
`behavior_file` is missing, and so is `resource_path` with the environment
variable unset: `ReadSDF` leaves at the construction of the path string.  In
neither does it return false. -/
theorem readSDF_missing_setting_raises :
    (namelessBlock ∈ modelTypes badPoseThenNameless ∧
      namelessBlock.HasElement "typename" = false ∧
      ∃ st1, ReadSDF decLib none badPoseThenNameless (emptyInterface decLib)
        = .raised .invalid_argument st1) ∧
    (noPathNoBehavior.HasElement "behavior_file" = false ∧
      ReadSDF decLib none noPathNoBehavior (emptyInterface decLib)
        = .raised .null_string (emptyInterface decLib)) := by
  refine ⟨⟨?_, rfl, _, rfl⟩, rfl, rfl⟩
  have hm : modelTypes badPoseThenNameless
      = [guardBlock "1.0 x 3.0 0.0 0.0 1.5708", namelessBlock] := rfl
  rw [hm]
  simp

/-! ## The resource path -/

theorem modelTypeBody_resourcePath {ν : Type} (lib : Lib ν) (e : Element)
    (st : CrowdSimInterface ν) :
    (modelTypeBody lib e st).state._resourcePath = st._resourcePath := by
  unfold modelTypeBody
  cases hs : e.GetString "typename" "" with
  | mk s found =>
    cases found with
    | false => rfl
    | true =>
      simp only []
      cases st._modelTypeDB.Emplace s (Record.new lib) with
      | raised ex db => rfl
      | ret ptr db =>
        simp only []
        cases fillRecord lib e s (Record.new lib) <;> rfl

theorem modelTypeLoop_resourcePath {ν : Type} (lib : Lib ν) (sibs : List Element)
    (st : CrowdSimInterface ν) :
    (modelTypeLoop lib sibs st).state._resourcePath = st._resourcePath := by
  induction sibs generalizing st with
  | nil => rfl
  | cons e rest ih =>
    by_cases hn : e.name = "model_type"
    · have hbody := modelTypeBody_resourcePath lib e st
      simp only [modelTypeLoop, hn, if_true]
      cases hb : modelTypeBody lib e st with
      | raised ex st2 =>
        rw [hb] at hbody
        exact hbody
      | ret b st2 =>
        rw [hb] at hbody
        cases b with
        | false => exact hbody
        | true =>
          simp only []
          rw [ih st2]
          exact hbody
    · simp only [modelTypeLoop, hn, if_false]
      exact ih st

/-- Once the path is resolved it is the stored resource path, however
`ReadSDF` ends. -/
theorem readSDF_resource_path_stored {ν : Type} (lib : Lib ν) (env : Option String)
    (sdf : Element) (st : CrowdSimInterface ν) (path : String)
    (hp : resolveResourcePath env sdf = .ok path) :
    (ReadSDF lib env sdf st).state._resourcePath = path := by
  unfold ReadSDF
  simp only [hp]
  cases findNamed "behavior_file" sdf.children with
  | none => rfl
  | some b =>
    cases findNamed "scene_file" sdf.children with
    | none => rfl
    | some sc =>
      cases findNamed "update_time_step" sdf.children with
      | none => rfl
      | some t =>
        cases sdf.HasElement "model_type" with
        | false => rfl
        | true =>
          simp only [Bool.not_true, Bool.false_eq_true, if_false]
          have hloop := modelTypeLoop_resourcePath lib sdf.children
            { st with _resourcePath := path, _behaviorFile := b.value,
                      _sceneFile := sc.value, _simTimeStep := lib.getFloat t.value }
          cases hl : modelTypeLoop lib sdf.children
              { st with _resourcePath := path, _behaviorFile := b.value,
                        _sceneFile := sc.value, _simTimeStep := lib.getFloat t.value } with
          | raised ex st5 =>
            rw [hl] at hloop
            exact hloop
          | ret r st5 =>
            rw [hl] at hloop
            cases r with
            | false => exact hloop
            | true => exact hloop

/-- The resource path of the tree, when present, else of the environment, is
the one stored; with neither, `ReadSDF` leaves at the construction of the path
string with the object untouched. -/
theorem readSDF_resource_path_resolution {ν : Type} (lib : Lib ν) (sdf : Element)
    (st : CrowdSimInterface ν) :
    (∀ (env : Option String) (c : Element),
      findNamed "resource_path" sdf.children = some c →
      (ReadSDF lib env sdf st).state._resourcePath = c.value) ∧
    (∀ p : String, sdf.HasElement "resource_path" = false →
      (ReadSDF lib (some p) sdf st).state._resourcePath = p) ∧
    (sdf.HasElement "resource_path" = false →
      ReadSDF lib none sdf st = .raised .null_string st) := by
  refine ⟨?_, ?_, ?_⟩
  · intro env c hc
    exact readSDF_resource_path_stored lib env sdf st c.value
      (by simp [resolveResourcePath, hc])
  · intro p hno
    have hnone : findNamed "resource_path" sdf.children = none := by
      simpa [Element.HasElement] using hno
    exact readSDF_resource_path_stored lib (some p) sdf st p
      (by simp [resolveResourcePath, hnone])
  · intro hno
    have hnone : findNamed "resource_path" sdf.children = none := by
      simpa [Element.HasElement] using hno
    simp [ReadSDF, resolveResourcePath, hnone]

end crowd_simulator
